import Mathlib

/-!  Verification of the Mobius intent-resolution and dispatch layer.

Shallow embedding of the client command registry and action layer
(`commands.js`), the server provider fallback chain (`server.js`) and the
Drive-backed focus workflow.  External I/O (HTTP fetches, the browser
file-system API, platform `Date` parsing) is modelled by explicit
parameters; everything else is translated directly from the JavaScript
source.
-/

namespace Mobius

/-! ## Basic string machinery (JS semantics on ASCII data) -/

/-- JS `\w` word character: `[A-Za-z0-9_]`. -/
def isWordChar (c : Char) : Bool := c.isAlphanum || c == '_'

/-- Lower-case a char list (mirrors `String.prototype.toLowerCase` on ASCII). -/
def lowerChars (s : List Char) : List Char := s.map Char.toLower

/-- `String.prototype.includes`: `q` occurs as a contiguous substring of `s`. -/
def subOcc (q : List Char) : List Char → Bool
  | [] => q.isEmpty
  | s@(_ :: t) => q.isPrefixOf s || subOcc q t

/-! ## Directory Search Engine (`searchDirectory`, commands.js lines 307-340) -/

/-- A node of the granted directory tree: a leaf file (carrying the
last-modified timestamp read by the date filters) or a container
directory.  File-metadata read failures are not modelled: every leaf's
timestamp is readable. -/
inductive Entry : Type where
  | file (name : String) (modified : Int)
  | dir  (name : String) (children : List Entry)

/-- Extension of a lower-cased file name: the characters after the last dot,
empty when no dot occurs (mirrors `lastIndexOf('.')` / `slice(dotIdx + 1)`). -/
def fileExtOf (nameLower : List Char) : List Char :=
  if nameLower.contains '.' then
    (nameLower.reverse.takeWhile (fun c => c != '.')).reverse
  else []

/-- Recursive search, translated line by line from `searchDirectory`:
a non-matching directory is still descended into when fewer than 200
results have been collected; the extension and date filters apply to files
only; a matched entry is appended unconditionally; a matched directory is
descended into when, after the append, fewer than 200 results are held. -/
def searchDirectory (query : String) (ext : Option String)
    (lo hi : Option Int) :
    List Entry → String → List String → List String
  | [], _, results => results
  | .file name modified :: rest, path, results =>
    let fullPath := if path = "" then name else path ++ "/" ++ name
    let nameLower := lowerChars name.data
    let results1 :=
      if !(subOcc query.data nameLower) then results
      else
        let extFail :=
          match ext with
          | some e => decide (fileExtOf nameLower ≠ e.data)
          | none => false
        if extFail then results
        else
          let dateFail :=
            (lo.isSome || hi.isSome) &&
              ((match lo with | some l => decide (modified < l) | none => false) ||
               (match hi with | some h => decide (h < modified) | none => false))
          if dateFail then results
          else results ++ ["📄 " ++ fullPath]
    searchDirectory query ext lo hi rest path results1
  | .dir name children :: rest, path, results =>
    let fullPath := if path = "" then name else path ++ "/" ++ name
    let nameLower := lowerChars name.data
    let results1 :=
      if !(subOcc query.data nameLower) then
        if results.length < 200 then
          searchDirectory query ext lo hi children fullPath results
        else results
      else
        let pushed := results ++ ["📁 " ++ fullPath]
        if pushed.length < 200 then
          searchDirectory query ext lo hi children fullPath pushed
        else pushed
    searchDirectory query ext lo hi rest path results1

/-- 500 matching leaves directly inside the searched container. -/
def flat500 : List Entry := List.replicate 500 (.file "leaf" 0)

/-- 500 matching leaves, each inside its own (non-matching) sub-container. -/
def nested500 : List Entry := List.replicate 500 (.dir "d" [.file "leaf" 0])

/-- `true` when a forest contains no leaf at any depth (containers only). -/
def noFiles : List Entry → Bool
  | [] => true
  | .file _ _ :: _ => false
  | .dir _ cs :: rest => noFiles cs && noFiles rest

/-- The container of the spec's extension-filter example: `a.pdf`, `a.txt`
and sub-container `b/` holding `b.pdf`. -/
def exampleTree : List Entry :=
  [.file "a.pdf" 0, .file "a.txt" 0, .dir "b" [.file "b.pdf" 0]]

/-! ## More JS string helpers -/

/-- JS `String.prototype.trim` (ASCII whitespace). -/
def jsTrim (s : String) : String :=
  ⟨((s.data.dropWhile Char.isWhitespace).reverse.dropWhile Char.isWhitespace).reverse⟩

/-- JS `String.prototype.toLowerCase` (ASCII). -/
def lowerStr (s : String) : String := ⟨lowerChars s.data⟩

/-- `pre` is a leading substring of `s` (JS `startsWith`). -/
def strStarts (pre s : String) : Bool := pre.data.isPrefixOf s.data

/-- JS `String.prototype.replace(pat, '')` with a plain-string pattern:
removes the first occurrence of `pat`, returns `s` unchanged if none. -/
def replaceFirstChars (pat : List Char) : List Char → List Char
  | [] => []
  | s@(c :: rest) =>
    if pat.isPrefixOf s then s.drop pat.length else c :: replaceFirstChars pat rest

/-- `replace(pat, '')` on strings. -/
def replaceFirst (s pat : String) : String := ⟨replaceFirstChars pat.data s.data⟩

/-- JS `split(sep)` with a single-char separator. -/
def splitOnChar (sep : Char) : List Char → List (List Char)
  | [] => [[]]
  | c :: rest =>
    let r := splitOnChar sep rest
    if c == sep then [] :: r
    else
      match r with
      | h :: t => (c :: h) :: t
      | [] => [[c]]

/-- JS `split(sep)` with a non-empty string separator `c0 :: cs`.  Every
step consumes at least one character, so `fuel = s.length` makes the
fuel-exhaustion fallback unreachable. -/
def splitOnStrAux (c0 : Char) (cs : List Char) : Nat → List Char → List (List Char)
  | 0, s => [s]
  | fuel + 1, s =>
    match s with
    | [] => [[]]
    | c :: rest =>
      if (c0 :: cs).isPrefixOf (c :: rest) then
        [] :: splitOnStrAux c0 cs fuel ((c :: rest).drop (cs.length + 1))
      else
        match splitOnStrAux c0 cs fuel rest with
        | h :: t => (c :: h) :: t
        | [] => [[c]]

/-- `split(': ')` used by the local-data extractor. -/
def splitColonSpace (s : String) : List String :=
  (splitOnStrAux ':' [' '] s.data.length s.data).map (⟨·⟩)

/-- `context.split('\n')`. -/
def linesOf (context : String) : List String :=
  (splitOnChar '\n' context.data).map (⟨·⟩)

/-! ## JS `Date` model

Calendar timestamps as broken-down records (month `0`-`11` as in JS).
The natural-date resolver's calendar arithmetic (`setDate`, `setMonth`,
`setFullYear` with JS day-overflow normalisation, `setHours`) is
reproduced on this record type; the platform's generic `new Date(string)`
parser is an explicit oracle parameter. -/

structure DateTime where
  year : Int
  month : Nat
  day : Nat
  hour : Nat
  minute : Nat
  second : Nat
  ms : Nat
  deriving Repr, DecidableEq

def isLeapYear (y : Int) : Bool :=
  (y % 4 == 0 && y % 100 != 0) || y % 400 == 0

def daysInMonth (y : Int) (m : Nat) : Nat :=
  match m with
  | 0 => 31 | 1 => if isLeapYear y then 29 else 28 | 2 => 31
  | 3 => 30 | 4 => 31 | 5 => 30 | 6 => 31 | 7 => 31
  | 8 => 30 | 9 => 31 | 10 => 30 | _ => 31

/-- Days since 1970-01-01 of a civil date (month here `1`-`12`). -/
def daysFromCivil (y m d : Int) : Int :=
  let y1 := if m ≤ 2 then y - 1 else y
  let era := y1.fdiv 400
  let yoe := y1 - era * 400
  let mp := (m + 9) % 12
  let doy := (153 * mp + 2).fdiv 5 + d - 1
  let doe := yoe * 365 + yoe.fdiv 4 - yoe.fdiv 100 + doy
  era * 146097 + doe - 719468

/-- Civil date (year, month `1`-`12`, day) from days since 1970-01-01. -/
def civilFromDays (z0 : Int) : Int × Int × Int :=
  let z := z0 + 719468
  let era := z.fdiv 146097
  let doe := z - era * 146097
  let yoe := (doe - doe.fdiv 1460 + doe.fdiv 36524 - doe.fdiv 146096).fdiv 365
  let y := yoe + era * 400
  let doy := doe - (365 * yoe + yoe.fdiv 4 - yoe.fdiv 100)
  let mp := (5 * doy + 2).fdiv 153
  let d := doy - (153 * mp + 2).fdiv 5 + 1
  let m := if mp < 10 then mp + 3 else mp - 9
  (if m ≤ 2 then y + 1 else y, m, d)

/-- `d.setDate(d.getDate() - n)`: subtract `n` days with calendar carry. -/
def subDays (dt : DateTime) (n : Nat) : DateTime :=
  let z := daysFromCivil dt.year (dt.month + 1) dt.day - n
  let c := civilFromDays z
  { dt with year := c.1, month := (c.2.1 - 1).toNat, day := c.2.2.toNat }

/-- `d.setMonth(d.getMonth() - 1)`: step back one month; a day past the end
of the target month rolls forward into the following month (JS `Date`
normalisation, e.g. March 31 `→` "February 31" `→` March 3). -/
def subOneMonth (dt : DateTime) : DateTime :=
  let ym : Int × Nat :=
    if dt.month = 0 then (dt.year - 1, 11) else (dt.year, dt.month - 1)
  let dim := daysInMonth ym.1 ym.2
  if dt.day > dim then
    let ym2 : Int × Nat :=
      if ym.2 = 11 then (ym.1 + 1, 0) else (ym.1, ym.2 + 1)
    { dt with year := ym2.1, month := ym2.2, day := dt.day - dim }
  else
    { dt with year := ym.1, month := ym.2, day := dt.day }

/-- `d.setFullYear(d.getFullYear() - 1)` with the same overflow
normalisation (February 29 `→` March 1 in a non-leap year). -/
def subOneYear (dt : DateTime) : DateTime :=
  let y := dt.year - 1
  let dim := daysInMonth y dt.month
  if dt.day > dim then
    { dt with year := y, month := dt.month + 1, day := dt.day - dim }
  else
    { dt with year := y, day := dt.day }

/-- `d.setHours(0, 0, 0, 0)`. -/
def startOfDay (dt : DateTime) : DateTime :=
  { dt with hour := 0, minute := 0, second := 0, ms := 0 }

/-- `d.setHours(23, 59, 59, 999)` (the `To:` end-of-day normalisation). -/
def endOfDayFields (dt : DateTime) : DateTime :=
  { dt with hour := 23, minute := 59, second := 59, ms := 999 }

/-! ## `parseNaturalDate` / `parseFindArgs` (commands.js lines 254-281) -/

/-- The natural-date resolver.  `generic` is the platform `new Date(str)`
parser (`none` models `NaN`/unparseable). -/
def parseNaturalDate (generic : String → Option DateTime) (now : DateTime)
    (str : String) : Option DateTime :=
  if str = "" then none
  else
    let s := lowerStr (jsTrim str)
    if s = "today" then some (startOfDay now)
    else if s = "yesterday" then some (startOfDay (subDays now 1))
    else if s = "last week" then some (startOfDay (subDays now 7))
    else if s = "last month" then some (startOfDay (subOneMonth now))
    else if s = "last year" then some (startOfDay (subOneYear now))
    else generic str

/-- Result record of `parseFindArgs` (`fromDate`/`toDate` embed the
source's `from`/`to` fields). -/
structure FindParts where
  name : String
  ext : Option String := none
  fromDate : Option DateTime := none
  toDate : Option DateTime := none
  deriving Repr, DecidableEq

/-- Does `s` start with keyword `kw` (case-insensitively) followed by a
colon?  On success returns the keyword as written plus the rest. -/
def matchKey (kw : List Char) (s : List Char) : Option (List Char × List Char) :=
  if lowerChars (s.take kw.length) = kw && s.get? kw.length == some ':' then
    some (s.take kw.length, s.drop (kw.length + 1))
  else none

/-- One candidate marker of `/\b(Ext|From|To):\s*/gi` at the current
position. -/
def keyAt (s : List Char) : Option (List Char × List Char) :=
  (matchKey "ext".data s).orElse fun _ =>
    (matchKey "from".data s).orElse fun _ =>
      matchKey "to".data s

/-- `raw.split(/\b(Ext|From|To):\s*/gi)`: segments interleaved with the
captured marker keywords; the marker's trailing whitespace is consumed.
`prevWord` tracks the word-character status of the previous character for
the leading `\b`.  Every step consumes at least one character, so
`fuel = s.length` makes the fuel-exhaustion fallback unreachable. -/
def splitFindAux : Nat → Bool → List Char → List Char → List (List Char)
  | 0, _, acc, s => [acc.reverse ++ s]
  | fuel + 1, prevWord, acc, s =>
    match s with
    | [] => [acc.reverse]
    | c :: rest =>
      if !prevWord then
        match keyAt (c :: rest) with
        | some (kw, after) =>
          acc.reverse :: kw ::
            splitFindAux fuel false [] (after.dropWhile Char.isWhitespace)
        | none => splitFindAux fuel (isWordChar c) (c :: acc) rest
      else splitFindAux fuel (isWordChar c) (c :: acc) rest

/-- The token list of `raw.split(/\b(Ext|From|To):\s*/gi)`. -/
def splitFind (raw : String) : List String :=
  (splitFindAux raw.data.length false [] raw.data).map (⟨·⟩)

/-- `val.replace(/^\./, '')`. -/
def stripLeadingDot (val : String) : String :=
  match val.data with
  | '.' :: rest => ⟨rest⟩
  | _ => val

/-- One marker assignment of the `parseFindArgs` loop body. -/
def applyMarker (generic : String → Option DateTime) (now : DateTime)
    (parts : FindParts) (key val0 : String) : FindParts :=
  let val := jsTrim val0
  let k := lowerStr key
  if k = "ext" then { parts with ext := some (lowerStr (stripLeadingDot val)) }
  else if k = "from" then { parts with fromDate := parseNaturalDate generic now val }
  else if k = "to" then { parts with toDate := parseNaturalDate generic now val }
  else parts

/-- The `for (let i = 1; i < tokens.length; i += 2)` marker loop of
`parseFindArgs`: later markers overwrite earlier ones; a marker's value is
the following token (or `''` at the end), trimmed. -/
def applyPairs (generic : String → Option DateTime) (now : DateTime) :
    FindParts → List String → FindParts
  | parts, [] => parts
  | parts, [key] => applyMarker generic now parts key ""
  | parts, key :: v :: rest =>
    applyPairs generic now (applyMarker generic now parts key v) rest

/-- The trailing `if (parts.to) { …; parts.to.setHours(23,59,59,999) }`
normalisation of `parseFindArgs`. -/
def normalizeTo (parts : FindParts) : FindParts :=
  match parts.toDate with
  | some d => { parts with toDate := some (endOfDayFields d) }
  | none => parts

/-- `parseFindArgs` (commands.js lines 267-281). -/
def parseFindArgs (generic : String → Option DateTime) (now : DateTime)
    (raw : String) : FindParts :=
  let tokens := splitFind raw
  let parts0 : FindParts := { name := lowerStr (jsTrim (tokens.headD "")) }
  normalizeTo (applyPairs generic now parts0 (tokens.drop 1))

/-! ## Phrase-pattern matching (the classifier regexes)

Every classifier regex in the source has the shape
`/\b(alt1|alt2|…)\b/i` where each alternative is a literal phrase
beginning and ending in a word character.  Such a test succeeds exactly
when some alternative occurs in the text with a word-boundary on each
side; the alternation groups with optional parts (`'s| is`,
`today'?s?`, …) are expanded into their finite phrase lists below. -/

/-- Word-character status of a position (edges of the string count as
non-word). -/
def wordB : Option Char → Bool
  | none => false
  | some c => isWordChar c

/-- Regex `\b` between two adjacent positions. -/
def boundaryB (a b : Option Char) : Bool := wordB a != wordB b

/-- Match the characters of a (non-empty) phrase literally; on success
return the last matched character and the rest of the text. -/
def phraseChars : List Char → List Char → Option (Char × List Char)
  | s, [] =>
    match s with
    | _ => none
  | s, [p] =>
    match s with
    | [] => none
    | c :: s' => if c == p then some (p, s') else none
  | s, p :: ps =>
    match s with
    | [] => none
    | c :: s' => if c == p then phraseChars s' ps else none

/-- The phrase matches at the current position with `\b` on both sides
(`prev` = the character before the position). -/
def matchHere (prev : Option Char) (s phrase : List Char) : Bool :=
  match phrase with
  | [] => true
  | p :: _ =>
    boundaryB prev (some p) &&
      (match phraseChars s phrase with
       | some (lastC, restTxt) => boundaryB (some lastC) restTxt.head?
       | none => false)

/-- The phrase occurs somewhere at-or-after the current position. -/
def hasPhraseFrom (phrase : List Char) : Option Char → List Char → Bool
  | prev, [] => matchHere prev [] phrase
  | prev, c :: rest => matchHere prev (c :: rest) phrase || hasPhraseFrom phrase (some c) rest

/-- `/\b(…|…)\b/i.test(text)` for an expanded alternative list. -/
def testPhrases (phrases : List String) (text : String) : Bool :=
  let tl := lowerChars text.data
  phrases.any fun p => hasPhraseFrom p.data none tl

/-! ## Local-data classifier (`LOCAL_PATTERNS` / `resolveLocalData`) -/

/-- One entry of `LOCAL_PATTERNS`: the expanded phrase alternatives of its
regex, plus its context key. -/
structure LocalPattern where
  phrases : List String
  key : String

def dtWords : List String := ["time", "date", "day"]

/-- Alternatives of
`/\b(what('s| is) the (time|date|day)|(current|today'?s?) (time|date|day))\b/i`. -/
def p1Phrases : List String :=
  (["what's the", "what is the", "current", "today", "today'", "todays",
    "today's"].map fun h => dtWords.map fun w => h ++ " " ++ w).flatten

/-- Alternatives of `/\b(what (time|day|date) is it)\b/i`. -/
def p2Phrases : List String :=
  ["what time is it", "what day is it", "what date is it"]

/-- Alternatives of
`/\b(what (browser|device|os|operating system) am i (using|on))\b/i`. -/
def p4Phrases : List String :=
  ((["browser", "device", "os", "operating system"].map fun d =>
    ["using", "on"].map fun u => "what " ++ d ++ " am i " ++ u)).flatten

def LOCAL_PATTERNS : List LocalPattern :=
  [⟨p1Phrases, "datetime"⟩,
   ⟨p2Phrases, "datetime"⟩,
   ⟨["where am i", "my location", "what city", "what country", "what region"],
    "location"⟩,
   ⟨p4Phrases, "device"⟩,
   ⟨["my timezone", "my time zone", "my utc offset"], "timezone"⟩,
   ⟨["am i online", "internet connection", "my connection", "my bandwidth"],
    "network"⟩,
   ⟨["my currency", "my local currency"], "currency"⟩,
   ⟨["my screen", "my resolution", "my display"], "screen"⟩]

/-- The per-key answer extraction of `resolveLocalData` over the context
lines; `none` embeds the JS `answer` variable remaining `null`. -/
def extractLocal (key : String) (lines : List String) : Option String :=
  if key = "datetime" then
    let dt := lines.find? (strStarts "Date/Time:")
    let tz := lines.find? (strStarts "Timezone:")
    match dt with
    | some d =>
      some (replaceFirst d "Date/Time: " ++
        (match tz with
         | some t => " (" ++ replaceFirst t "Timezone: " ++ ")"
         | none => ""))
    | none => none
  else if key = "location" then
    (lines.find? (strStarts "Location:")).map (replaceFirst · "Location: ")
  else if key = "device" then
    let os := lines.find? (strStarts "OS:")
    let br := lines.find? (strStarts "Browser:")
    let dev := lines.find? (strStarts "Device:")
    some (String.intercalate ", "
      (([os, br, dev].filterMap id).map fun l => (splitColonSpace l).getD 1 ""))
  else if key = "timezone" then
    (lines.find? (strStarts "Timezone:")).map (replaceFirst · "Timezone: ")
  else if key = "network" then
    let onl := lines.find? (strStarts "Online:")
    let bw := lines.find? (strStarts "Bandwidth:")
    let lat := lines.find? (strStarts "Latency:")
    let con := lines.find? (strStarts "Connection:")
    some (String.intercalate ", "
      (([onl, con, bw, lat].filterMap id).map fun l =>
        String.intercalate ": " ((splitColonSpace l).drop 1)))
  else if key = "currency" then
    (lines.find? (strStarts "Currency:")).map (replaceFirst · "Currency: ")
  else if key = "screen" then
    (lines.find? (strStarts "Screen:")).map (replaceFirst · "Screen: ")
  else none

/-- The JS truthiness check `if (answer) return …`: a `null` or empty
answer is not returned. -/
def answerTruthy : Option String → Option String
  | some a => if a = "" then none else some a
  | none => none

def resolveLocalDataGo (text : String) (lines : List String) :
    List LocalPattern → Option String
  | [] => none
  | p :: rest =>
    if testPhrases p.phrases text then
      match answerTruthy (extractLocal p.key lines) with
      | some a => some a
      | none => resolveLocalDataGo text lines rest
    else resolveLocalDataGo text lines rest

/-- `resolveLocalData` (commands.js lines 827-869). -/
def resolveLocalData (text context : String) : Option String :=
  if context = "" then none
  else resolveLocalDataGo text (linesOf context) LOCAL_PATTERNS

/-! ## Google service classifier and command detection -/

structure GooglePattern where
  phrases : List String
  model : String

def GOOGLE_PATTERNS : List GooglePattern :=
  [⟨["drive", "my files", "google drive", "gdrive"], "google_drive"⟩,
   ⟨["task", "todo", "to-do", "to do list"], "google_tasks"⟩,
   ⟨["calendar", "schedule", "my events", "appointments"], "google_calendar"⟩,
   ⟨["email", "gmail", "inbox", "my emails", "my mail"], "google_gmail"⟩]

/-- `/^Ask:\s*\w+/i.test(text)`: an explicit provider override marker. -/
def askOverride (text : String) : Bool :=
  let l := lowerChars text.data
  "ask:".data.isPrefixOf l &&
    (match (l.drop 4).dropWhile Char.isWhitespace with
     | [] => false
     | c :: _ => isWordChar c)

/-- `resolveGoogle` (commands.js lines 880-888). -/
def resolveGoogle (text : String) : Option String :=
  if askOverride text then none
  else (GOOGLE_PATTERNS.find? fun g => testPhrases g.phrases text).map (·.model)

/-- One command-registry entry (handlers modelled separately). -/
structure CommandDescriptor where
  keyword : String
  requiresAccess : Bool
  isAI : Bool

def COMMANDS : List CommandDescriptor :=
  [⟨"date", false, false⟩, ⟨"time", false, false⟩, ⟨"location", false, false⟩,
   ⟨"device", false, false⟩, ⟨"google", false, false⟩, ⟨"access", false, false⟩,
   ⟨"find", true, false⟩, ⟨"list", true, false⟩, ⟨"history", false, false⟩,
   ⟨"focus", false, false⟩, ⟨"ask", false, true⟩]

def isCommandKeyword (c : String) : Bool := COMMANDS.any fun d => d.keyword = c

def SINGLE_WORD_COMMANDS : List String :=
  ["date", "time", "location", "device", "access", "list", "history", "google"]

/-- `detectCommand` (commands.js lines 560-575): a bare single-word
shortcut, or the colon form `/^(\w+):\s*([\s\S]*)/` with a known keyword. -/
def detectCommand (text : String) : Option (String × String) :=
  let trimmed := jsTrim text
  let lower := lowerStr trimmed
  if SINGLE_WORD_COMMANDS.contains lower
      && !(trimmed.data.any Char.isWhitespace) then
    some (lower, "")
  else
    let w := trimmed.data.takeWhile isWordChar
    if w.isEmpty then none
    else
      match trimmed.data.drop w.length with
      | ':' :: rest =>
        let command := lowerStr ⟨w⟩
        if isCommandKeyword command then
          some (command, jsTrim ⟨rest.dropWhile Char.isWhitespace⟩)
        else none
      | _ => none

/-! ## Intent Resolver (`resolveAction`) -/

inductive ResolvedAction where
  | command (cmd : String) (args : String)
  | localAnswer (answer : String)
  | googleService (model : String)
  | ai
  deriving Repr, DecidableEq

/-- `resolveCommand` (commands.js lines 808-812). -/
def resolveCommand (text : String) : Option ResolvedAction :=
  (detectCommand text).map fun p => .command p.1 p.2

/-- `resolveAction` (commands.js lines 892-897): command, then local data,
then Google routing, then the AI default. -/
def resolveAction (text context : String) : ResolvedAction :=
  match resolveCommand text with
  | some a => a
  | none =>
    match resolveLocalData text context with
    | some ans => .localAnswer ans
    | none =>
      match resolveGoogle text with
      | some m => .googleService m
      | none => .ai

/-! ## Provider Fallback Chain (server.js lines 75-104)

A provider attempt is a call to `askGroq` / `askGemini` / `askMistral`,
modelled as a function to `Except`: `.error` is a thrown failure, which
for groq includes the source's unwrap of a response embedding its own
`"error"` field.  Alongside the source's return value, the embedding logs
the list of providers attempted, in order. -/

def MODEL_CHAIN : List String := ["groq", "gemini", "mistral"]

/-- The `for (const model of chain)` loop of `askWithFallback`, with
`lastErr` threading; the chain fails with the last underlying cause. -/
def runChain (attempt : String → Except String String) (startModel : String) :
    List String → Option String → Except String (String × String) × List String
  | [], lastErr => (.error (lastErr.getD "All models failed"), [])
  | model :: rest, _lastErr =>
    match attempt model with
    | .ok result =>
      let label :=
        if model = startModel then model
        else model ++ " (fallback from " ++ startModel ++ ")"
      (.ok (result, label), [model])
    | .error e =>
      let r := runChain attempt startModel rest (some e)
      (r.1, model :: r.2)

/-- `MODEL_CHAIN.slice(startIdx)`, the whole chain when `indexOf` gives
`-1`. -/
def chainFrom (startModel : String) : List String :=
  if MODEL_CHAIN.contains startModel then
    MODEL_CHAIN.drop (MODEL_CHAIN.indexOf startModel)
  else MODEL_CHAIN

/-- `askWithFallback(messages, imageParts, startModel)` (the messages and
image parts live inside `attempt`).  Returns the source's
`{reply, modelUsed}` (or the propagated error) plus the attempt log. -/
def askWithFallback (attempt : String → Except String String)
    (startModel : String) : Except String (String × String) × List String :=
  runChain attempt startModel (chainFrom startModel) none

/-- The `/ask` route's `ASK === 'gemini'` branch (server.js lines
304-319): gemini, then mistral with an explicit fallback label, then the
whole chain restarted from groq. -/
def askGeminiBranch (attempt : String → Except String String) :
    Except String (String × String) × List String :=
  match attempt "gemini" with
  | .ok r => (.ok (r, "gemini"), ["gemini"])
  | .error _ =>
    match attempt "mistral" with
    | .ok r => (.ok (r, "mistral (fallback from gemini)"), ["gemini", "mistral"])
    | .error _ =>
      let r := askWithFallback attempt "groq"
      (r.1, "gemini" :: "mistral" :: r.2)

/-! ## Focus Workflow (`handleFocus`, commands.js lines 361-518)

The remote store calls (`/api/focus/*` fetches) are modelled by explicit
response parameters: `.ok` a successful JSON body, `.errField` a body
carrying `data.error`, `.exn` a thrown fetch/parse failure.  The
embedding also records the content handed to the append and
update-original persist calls.  Display-only HTML is abbreviated to short
marker strings. -/

inductive RemoteResult (α : Type) where
  | ok (val : α)
  | errField (msg : String)
  | exn (msg : String)

structure DriveFileInfo where
  id : String
  name : String
  mimeType : String
  inMobius : Bool
  path : Option String
  deriving Repr, DecidableEq

/-- The `focusFile` session record
`{ id, name, mimeType, content, folderId, originalId, path }`. -/
structure FocusFile where
  id : String
  name : String
  mimeType : String
  content : String
  folderId : String
  originalId : Option String
  path : Option String
  deriving Repr, DecidableEq

structure FocusEnv where
  userId : Option String
  now : String
  findResp : RemoteResult (List DriveFileInfo × String)
  createResp : RemoteResult (String × String)
  readResp : RemoteResult String
  copyResp : RemoteResult (String × String × String)
  updateResp : RemoteResult Unit
  appendResp : RemoteResult Unit

structure FocusResult where
  st : Option FocusFile
  out : List String
  appendSent : Option String := none
  updateSent : Option (String × String) := none

/-- `window.focusSelectFile` (commands.js lines 367-404). -/
def focusSelectFile (env : FocusEnv) (file : DriveFileInfo)
    (folderId : String) (st : Option FocusFile) : FocusResult :=
  if file.inMobius then
    match env.readResp with
    | .ok content =>
      { st := some ⟨file.id, file.name, file.mimeType, content, folderId,
          none, file.path⟩,
        out := ["🟢 Focused on: " ++ file.name] }
    | .errField m => { st := st, out := ["❌ Read failed: " ++ m] }
    | .exn m => { st := st, out := ["❌ " ++ m] }
  else
    match env.copyResp with
    | .ok c =>
      { st := some ⟨c.1, c.2.1, "text/plain", c.2.2, folderId,
          some file.id, file.path⟩,
        out := ["🟢 Focused on: " ++ c.2.1] }
    | .errField m => { st := st, out := ["❌ Copy failed: " ++ m] }
    | .exn m => { st := st, out := ["❌ " ++ m] }

/-- The guard of the `Focus: add …` branch:
`trimmed.toLowerCase().startsWith('add') && (trimmed.length === 3 ||
trimmed[3] === ' ' || trimmed[3] === '\n')`. -/
def isAddForm (trimmed : String) : Bool :=
  strStarts "add" (lowerStr trimmed) &&
    (trimmed.data.length == 3 || trimmed.data.get? 3 == some ' '
      || trimmed.data.get? 3 == some '\n')

/-- `text = trimmed.slice(3).replace(/^[\\s\\n]+/, '')` of the add branch. -/
def addTextOf (trimmed : String) : String :=
  ⟨(trimmed.data.drop 3).dropWhile Char.isWhitespace⟩

/-- The appended block:
`(content ? content + '\\n\\n' : '') + '[' + timestamp + ']\\n' + text`. -/
def appendedContent (f : FocusFile) (now text : String) : String :=
  (if f.content ≠ "" then f.content ++ "\n\n" else "") ++ "[" ++ now ++ "]\n" ++ text

/-- `handleFocus` (commands.js lines 406-518). -/
def handleFocus (env : FocusEnv) (args : String) (st : Option FocusFile) :
    FocusResult :=
  match env.userId with
  | none => { st := st, out := ["❌ Not logged in."] }
  | some _ =>
    let trimmed := jsTrim args
    if lowerStr trimmed = "end" then
      { st := none, out := ["🔴 Focus ended. File detached from queries."] }
    else if lowerStr trimmed = "update" then
      match st with
      | none => { st := st, out := ["❌ No file in focus."] }
      | some f =>
        match f.originalId with
        | none =>
          { st := st,
            out := ["❌ No original file to update (file was created in Mobius folder)."] }
        | some oid =>
          match env.updateResp with
          | .ok _ =>
            { st := st,
              out := ["🔄 Updating original file...",
                "✅ Original file updated successfully."],
              updateSent := some (oid, f.content) }
          | .errField m =>
            { st := st,
              out := ["🔄 Updating original file...", "❌ Update failed: " ++ m],
              updateSent := some (oid, f.content) }
          | .exn m =>
            { st := st,
              out := ["🔄 Updating original file...", "❌ " ++ m],
              updateSent := some (oid, f.content) }
    else if isAddForm trimmed then
      match st with
      | none => { st := st, out := ["❌ No file in focus. Use Focus: filename first."] }
      | some f =>
        let text := addTextOf trimmed
        if text = "" then
          { st := st, out := ["Usage: Focus: add [your text here]"] }
        else
          let updated := appendedContent f env.now text
          match env.appendResp with
          | .ok _ =>
            { st := some { f with content := updated },
              out := ["💾 Saving to \"" ++ f.name ++ "\"...",
                "✅ Saved to \"" ++ f.name ++ "\"."],
              appendSent := some updated }
          | .errField m =>
            { st := st,
              out := ["💾 Saving to \"" ++ f.name ++ "\"...",
                "❌ Save failed: " ++ m],
              appendSent := some updated }
          | .exn m =>
            { st := st,
              out := ["💾 Saving to \"" ++ f.name ++ "\"...", "❌ " ++ m],
              appendSent := some updated }
    else
      let filename := trimmed
      if filename = "" then
        { st := st,
          out := ["Usage: Focus: filename  |  Focus: add [text]  |  Focus: update  |  Focus: end"] }
      else
        match env.findResp with
        | .errField m => { st := st, out := ["❌ " ++ m] }
        | .exn m => { st := st, out := ["❌ " ++ m] }
        | .ok fl =>
          match fl.1 with
          | [] =>
            match env.createResp with
            | .ok c =>
              { st := some ⟨c.1, c.2, "text/plain", "", fl.2, none, none⟩,
                out := ["📄 Not found. Creating \"" ++ filename ++ ".md\" in Mobius folder...",
                  "🟢 Focused on new file: " ++ c.2] }
            | .errField m =>
              { st := st,
                out := ["📄 Not found. Creating \"" ++ filename ++ ".md\" in Mobius folder...",
                  "❌ " ++ m] }
            | .exn m =>
              { st := st,
                out := ["📄 Not found. Creating \"" ++ filename ++ ".md\" in Mobius folder...",
                  "❌ " ++ m] }
          | [f1] => focusSelectFile env f1 fl.2 st
          | _ =>
            { st := st,
              out := ["📋 Found " ++ toString fl.1.length ++ " files. Tap to select:"] }

/-- The server-side `createDriveFile` naming (google_api.js): a document
created by the no-match branch is named `filename + '.md'` with empty
body. -/
def createdFileName (filename : String) : String := filename ++ ".md"

/-! ## Resource access (`ensureAccess` / `handleAccess`, commands.js
lines 74-86 and 226-250)

The IndexedDB slot and the in-memory `rootHandle` form the state; the
permission-API results and the directory picker's outcome are environment
parameters.  `prompts` counts user prompts shown (`requestPermission`
calls and pickers); `storeReads` counts `loadHandle` calls. -/

inductive Perm where
  | granted
  | denied
  | prompt
  deriving Repr, DecidableEq

structure AccessState where
  root : Option String
  stored : Option String
  deriving Repr, DecidableEq

structure AccessEnv where
  apiSupported : Bool
  loadFails : Bool
  queryPerm : Perm
  requestPerm : Perm
  picker : Except (Bool × String) String

structure AccessOutcome where
  ok : Bool
  state : AccessState
  prompts : Nat
  storeReads : Nat
  out : List String
  deriving Repr, DecidableEq

/-- `handleAccess` (commands.js lines 226-250): clears both the in-memory
handle and the stored slot, then shows the picker; cancellation
(`AbortError`, the `Bool` of the picker error) and denial both leave the
cleared state in place. -/
def handleAccess (env : AccessEnv) (st : AccessState) : AccessOutcome :=
  if !env.apiSupported then
    { ok := false, state := st, prompts := 0, storeReads := 0,
      out := ["❌ File System Access API not supported. Use Chrome or Edge on desktop/Android."] }
  else
    match env.picker with
    | .ok h =>
      { ok := true, state := { root := some h, stored := some h },
        prompts := 1, storeReads := 0,
        out := ["✅ Access granted to: " ++ h] }
    | .error e =>
      { ok := false, state := { root := none, stored := none },
        prompts := 1, storeReads := 0,
        out := [if e.1 then "❌ Folder selection cancelled."
                else "❌ Access denied: " ++ e.2] }

/-- `ensureAccess` (commands.js lines 74-86): with a stored handle, the
permission is queried and, only when not already granted, requested once
(that request is a prompt); a still-ungranted permission, a missing or
unreadable stored handle, each falls through to `handleAccess`. -/
def ensureAccess (env : AccessEnv) (st : AccessState) : AccessOutcome :=
  if st.root.isSome then
    { ok := true, state := st, prompts := 0, storeReads := 0, out := [] }
  else if env.loadFails then
    let r := handleAccess env st
    { r with
        storeReads := r.storeReads + 1,
        out := "No folder access granted. Running Access..." :: r.out }
  else
    match st.stored with
    | some h =>
      if env.queryPerm = .granted then
        { ok := true, state := { st with root := some h },
          prompts := 0, storeReads := 1, out := [] }
      else if env.requestPerm = .granted then
        { ok := true, state := { st with root := some h },
          prompts := 1, storeReads := 1, out := [] }
      else
        let r := handleAccess env st
        { r with
            prompts := r.prompts + 1,
            storeReads := r.storeReads + 1,
            out := "No folder access granted. Running Access..." :: r.out }
    | none =>
      let r := handleAccess env st
      { r with
          storeReads := r.storeReads + 1,
          out := "No folder access granted. Running Access..." :: r.out }

/-- The provider-outcome environment of the C2 witness: gemini throws,
mistral answers. -/
def attemptC2 : String → Except String String := fun m =>
  if m = "mistral" then .ok "R" else .error "boom"

/-- Concrete focused session used by witnesses. -/
def fWit : FocusFile := ⟨"id1", "notes.md", "text/plain", "old", "FID", none, none⟩

/-- Concrete focus environment whose append persist call fails. -/
def envWitFail : FocusEnv :=
  ⟨some "u", "NOW", .ok ([], "FID"), .ok ("CID", "doc.md"), .ok "c",
    .ok ("i", "n", "c"), .ok (), .errField "quota"⟩

/-- Concrete focus environment whose remote calls all succeed. -/
def envWitOk : FocusEnv :=
  ⟨some "u", "NOW", .ok ([], "FID"), .ok ("CID", "doc.md"), .ok "c",
    .ok ("i", "n", "c"), .ok (), .ok ()⟩

/-- Concrete access environment: stored permission still granted, picker
would succeed. -/
def envAccessWit : AccessEnv :=
  { apiSupported := true, loadFails := false, queryPerm := .granted,
    requestPerm := .denied, picker := .ok "H" }

/-!  ########################################################################
     Theorems
     ######################################################################## -/

/-! ## C1: the 200-result cap -/

theorem search_flat_step (rest : List Entry) (results : List String) :
    searchDirectory "leaf" none none none (Entry.file "leaf" 0 :: rest) "" results
      = searchDirectory "leaf" none none none rest "" (results ++ ["📄 leaf"]) := by
  conv_lhs => simp only [searchDirectory]
  norm_num [show subOcc "leaf".data (lowerChars "leaf".data) = true from by decide,
    show ("📄 " ++ "leaf" : String) = "📄 leaf" from rfl]

theorem search_flat (n : Nat) (results : List String) :
    (searchDirectory "leaf" none none none
        (List.replicate n (Entry.file "leaf" 0)) "" results).length
      = results.length + n := by
  induction n generalizing results with
  | zero => simp [searchDirectory]
  | succ k ih =>
    rw [List.replicate_succ, search_flat_step, ih]
    simp
    omega

theorem search_nested_stop (k : Nat) (results : List String)
    (h : ¬ results.length < 200) :
    searchDirectory "leaf" none none none
      (List.replicate k (Entry.dir "d" [Entry.file "leaf" 0])) "" results
      = results := by
  induction k with
  | zero => simp [searchDirectory]
  | succ m ih =>
    rw [List.replicate_succ]
    conv_lhs => simp only [searchDirectory]
    norm_num [show subOcc "leaf".data (lowerChars "d".data) = false from by decide,
      h, ih]

theorem search_nested_step (rest : List Entry) (results : List String)
    (h : results.length < 200) :
    searchDirectory "leaf" none none none
        (Entry.dir "d" [Entry.file "leaf" 0] :: rest) "" results
      = searchDirectory "leaf" none none none rest "" (results ++ ["📄 d/leaf"]) := by
  conv_lhs => simp only [searchDirectory]
  norm_num [show subOcc "leaf".data (lowerChars "d".data) = false from by decide, h,
    show subOcc "leaf".data (lowerChars "leaf".data) = true from by decide,
    show ("d" ++ "/" ++ "leaf" : String) = "d/leaf" from rfl,
    show (if ("d" : String) = "" then "leaf" else "d/leaf") = "d/leaf" from rfl,
    show ("📄 " ++ "d/leaf" : String) = "📄 d/leaf" from rfl]

theorem search_nested (k : Nat) (results : List String)
    (h : results.length ≤ 200) :
    (searchDirectory "leaf" none none none
        (List.replicate k (Entry.dir "d" [Entry.file "leaf" 0])) "" results).length
      = min 200 (results.length + k) := by
  induction k generalizing results with
  | zero => simp [searchDirectory]; omega
  | succ m ih =>
    rw [List.replicate_succ]
    by_cases hlt : results.length < 200
    · rw [search_nested_step _ _ hlt, ih]
      · simp; omega
      · simp; omega
    · rw [show (Entry.dir "d" [Entry.file "leaf" 0] ::
          List.replicate m (Entry.dir "d" [Entry.file "leaf" 0]))
          = List.replicate (m + 1) (Entry.dir "d" [Entry.file "leaf" 0]) from
          (List.replicate_succ _ _).symm,
        search_nested_stop _ _ hlt]
      omega

/-- C1, counterexample: the cap guards only the *descent* into
sub-containers, not the result append.  A container directly holding 500
matching leaves yields all 500 results, refuting both "at most 200 matched
entries for every tree" and "500 matching leaves yield exactly 200". -/
theorem C1_counterexample :
    (searchDirectory "leaf" none none none flat500 "" []).length = 500 ∧
      ¬ (searchDirectory "leaf" none none none flat500 "" []).length ≤ 200 := by
  have h := search_flat 500 []
  simp only [List.length_nil] at h
  refine ⟨?_, ?_⟩ <;> (rw [flat500]; omega)

/-- C1, amended: once 200 results are held no further sub-container is
entered, so 500 matching leaves spread one per sub-container yield exactly
200 results; but entries of containers already being enumerated are still
appended without bound, so a flat container with 500 matching leaves
yields all 500. -/
theorem C1_cap_amended :
    (searchDirectory "leaf" none none none nested500 "" []).length = 200 ∧
      (searchDirectory "leaf" none none none flat500 "" []).length = 500 := by
  have h1 := search_nested 500 [] (by simp)
  have h2 := search_flat 500 []
  simp only [List.length_nil] at h1 h2
  constructor
  · rw [nested500]; omega
  · rw [flat500]; omega

/-! ## C3: filters decide leaves only, never containers -/

theorem searchDirectory_noFiles_aux :
    ∀ (N : Nat) (es : List Entry), sizeOf es ≤ N →
    ∀ (q : String) (ext : Option String) (lo hi : Option Int)
      (path : String) (results : List String), noFiles es = true →
      searchDirectory q ext lo hi es path results
        = searchDirectory q none none none es path results := by
  intro N
  induction N with
  | zero =>
    intro es h
    cases es <;> simp_all
  | succ n ih =>
    intro es hsz q ext lo hi path results hnf
    match es with
    | [] => simp [searchDirectory]
    | .file nm m :: rest => simp [noFiles] at hnf
    | .dir nm cs :: rest =>
      simp only [noFiles, Bool.and_eq_true] at hnf
      have h1 : sizeOf cs ≤ n := by
        simp only [List.cons.sizeOf_spec, Entry.dir.sizeOf_spec] at hsz
        omega
      have h2 : sizeOf rest ≤ n := by
        simp only [List.cons.sizeOf_spec, Entry.dir.sizeOf_spec] at hsz
        omega
      simp only [searchDirectory]
      simp only [ih cs h1 q ext lo hi _ _ hnf.1, ih rest h2 q ext lo hi _ _ hnf.2]

/-- C3: the extension filter admits `a.pdf` and `b/b.pdf` and excludes
`a.txt`, while the sub-container `b` is descended into although it is a
directory and the filter is set; and in general, on a forest without
leaves the extension and date filters change nothing at all — they
constrain leaf admission only, never container traversal. -/
theorem C3_filters_leaves_only :
    (searchDirectory "." (some "pdf") none none exampleTree "" []
        = ["📄 a.pdf", "📄 b/b.pdf"]) ∧
      ∀ (q : String) (ext : Option String) (lo hi : Option Int)
        (path : String) (results : List String) (es : List Entry),
        noFiles es = true →
        searchDirectory q ext lo hi es path results
          = searchDirectory q none none none es path results := by
  constructor
  · simp only [exampleTree, searchDirectory]
    norm_num [show subOcc ".".data (lowerChars "a.pdf".data) = true from by decide,
      show subOcc ".".data (lowerChars "a.txt".data) = true from by decide,
      show subOcc ".".data (lowerChars "b.pdf".data) = true from by decide,
      show subOcc ".".data (lowerChars "b".data) = false from by decide,
      show fileExtOf (lowerChars "a.pdf".data) = "pdf".data from by decide,
      show fileExtOf (lowerChars "a.txt".data) = "txt".data from by decide,
      show fileExtOf (lowerChars "b.pdf".data) = "pdf".data from by decide,
      show ("📄 " ++ "a.pdf" : String) = "📄 a.pdf" from rfl,
      show (if ("b" : String) = "" then "b.pdf" else "b/b.pdf") = "b/b.pdf" from rfl,
      show ("📄 " ++ "b/b.pdf" : String) = "📄 b/b.pdf" from rfl]
    decide
  · intro q ext lo hi path results es hnf
    exact searchDirectory_noFiles_aux (sizeOf es) es (Nat.le_refl _)
      q ext lo hi path results hnf

/-- C3 witness: at a concrete directory-only forest and concrete filters,
the filtered and unfiltered searches agree. -/
theorem C3_filters_leaves_only_witness :
    noFiles [Entry.dir "c" [Entry.dir "e" []]] = true ∧
      searchDirectory "c" (some "pdf") (some 5) (some 9)
          [Entry.dir "c" [Entry.dir "e" []]] "" []
        = searchDirectory "c" none none none
          [Entry.dir "c" [Entry.dir "e" []]] "" [] :=
  ⟨by simp [noFiles],
   C3_filters_leaves_only.2 "c" (some "pdf") (some 5) (some 9) "" []
     [Entry.dir "c" [Entry.dir "e" []]] (by simp [noFiles])⟩

/-! ## C2: provider fallback chain -/

theorem runChain_log_subset (attempt : String → Except String String)
    (startModel : String) :
    ∀ (chain : List String) (le : Option String),
      (runChain attempt startModel chain le).2 ⊆ chain := by
  intro chain
  induction chain with
  | nil => intro le; simp [runChain]
  | cons m rest ih =>
    intro le
    simp only [runChain]
    cases attempt m with
    | ok r => simp
    | error e =>
      simp only
      exact List.cons_subset_cons m (ih (some e))

/-- C2: (a) the chain never attempts a provider ordered before the start:
every logged attempt has a `MODEL_CHAIN` index at least the start's;
(b) with gemini failing and mistral succeeding, the outcome is labelled
`"mistral (fallback from gemini)"` and groq is never attempted — both for
`askWithFallback` itself and for the `/ask` route's gemini branch;
(c) a provider that is the first attempted yields its bare name as label. -/
theorem C2_provider_fallback :
    (∀ (attempt : String → Except String String) (start m : String),
        start ∈ MODEL_CHAIN → m ∈ (askWithFallback attempt start).2 →
        MODEL_CHAIN.indexOf start ≤ MODEL_CHAIN.indexOf m) ∧
      (∀ (attempt : String → Except String String) (e r : String),
        attempt "gemini" = .error e → attempt "mistral" = .ok r →
        askWithFallback attempt "gemini"
            = (.ok (r, "mistral (fallback from gemini)"), ["gemini", "mistral"]) ∧
          askGeminiBranch attempt
            = (.ok (r, "mistral (fallback from gemini)"), ["gemini", "mistral"]) ∧
          "groq" ∉ (askWithFallback attempt "gemini").2) ∧
      ∀ (attempt : String → Except String String) (r start : String),
        start ∈ MODEL_CHAIN → attempt start = .ok r →
        askWithFallback attempt start = (.ok (r, start), [start]) := by
  refine ⟨?_, ?_, ?_⟩
  · intro attempt start m hstart hm
    have hsub : m ∈ chainFrom start := by
      exact runChain_log_subset attempt start (chainFrom start) none hm
    simp only [ MODEL_CHAIN, List.mem_cons, List.not_mem_nil, or_false] at hstart
    rcases hstart with h | h | h <;> subst h
    · have h0 : MODEL_CHAIN.indexOf "groq" = 0 := by decide
      rw [h0]
      exact Nat.zero_le _
    · have hch : chainFrom "gemini" = ["gemini", "mistral"] := rfl
      rw [hch] at hsub
      simp only [List.mem_cons, List.not_mem_nil, or_false] at hsub
      rcases hsub with h | h <;> subst h <;> decide
    · have hch : chainFrom "mistral" = ["mistral"] := rfl
      rw [hch] at hsub
      simp only [List.mem_cons, List.not_mem_nil, or_false] at hsub
      subst hsub
      decide
  · intro attempt e r h1 h2
    have hch : chainFrom "gemini" = ["gemini", "mistral"] := rfl
    refine ⟨?_, ?_, ?_⟩
    · simp [askWithFallback, hch, runChain, h1, h2]
    · simp [askGeminiBranch, h1, h2]
    · simp [askWithFallback, hch, runChain, h1, h2]
  · intro attempt r start hstart h
    simp only [ MODEL_CHAIN, List.mem_cons, List.not_mem_nil, or_false] at hstart
    rcases hstart with hs | hs | hs <;> subst hs <;>
      simp [askWithFallback, chainFrom, runChain, h]

/-- C2 witness: with the concrete outcome function `attemptC2` (gemini
throws, mistral answers `"R"`), both entry points return the labelled
fallback outcome. -/
theorem C2_provider_fallback_witness :
    askWithFallback attemptC2 "gemini"
        = (.ok ("R", "mistral (fallback from gemini)"), ["gemini", "mistral"]) ∧
      askGeminiBranch attemptC2
        = (.ok ("R", "mistral (fallback from gemini)"), ["gemini", "mistral"]) :=
  ⟨(C2_provider_fallback.2.1 attemptC2 "boom" "R" rfl rfl).1,
   (C2_provider_fallback.2.1 attemptC2 "boom" "R" rfl rfl).2.1⟩

/-! ## C4: a failed append persist never mutates the session -/

/-- C4: on a focused session, `focus: add …` whose persist call fails
(error-field response or thrown exception) leaves the in-memory Focus
Session exactly as it was; only a successful persist updates it, and then
to precisely the value that was handed to the persist call. -/
theorem C4_add_no_silent_drift :
    ∀ (env : FocusEnv) (args : String) (f : FocusFile) (u : String),
      env.userId = some u →
      lowerStr (jsTrim args) ≠ "end" →
      lowerStr (jsTrim args) ≠ "update" →
      isAddForm (jsTrim args) = true →
      addTextOf (jsTrim args) ≠ "" →
      (∀ m, (env.appendResp = .errField m ∨ env.appendResp = .exn m) →
          (handleFocus env args (some f)).st = some f) ∧
        (env.appendResp = .ok () →
          (handleFocus env args (some f)).st
              = some { f with content :=
                  appendedContent f env.now (addTextOf (jsTrim args)) } ∧
            (handleFocus env args (some f)).appendSent
              = some (appendedContent f env.now (addTextOf (jsTrim args)))) := by
  intro env args f u hu he hup ha hx
  constructor
  · intro m hm
    rcases hm with h | h <;> simp [handleFocus, hu, he, hup, ha, hx, h]
  · intro hok
    simp [handleFocus, hu, he, hup, ha, hx, hok]

/-- C4 witness: with the concrete environment whose append call answers
with an error field, `focus: add hello` leaves the session untouched. -/
theorem C4_add_no_silent_drift_witness :
    (handleFocus envWitFail "add hello" (some fWit)).st = some fWit :=
  (C4_add_no_silent_drift envWitFail "add hello" fWit "u" rfl (by decide)
      (by decide) (by decide) (by decide)).1 "quota" (Or.inl rfl)

/-! ## C5: resolution is total, ordered, first match wins -/

/-- C5: `resolveAction` always produces exactly one action, trying the
command classifier, then local data, then the Google service router, with
the AI request as default — first match wins.  (Determinism is inherent:
the embedding is a function of `(text, context)`.) -/
theorem C5_resolve_total_priority :
    ∀ (t c : String),
      (∀ k a, detectCommand t = some (k, a) →
        resolveAction t c = .command k a) ∧
      (detectCommand t = none →
        ∀ ans, resolveLocalData t c = some ans →
          resolveAction t c = .localAnswer ans) ∧
      (detectCommand t = none → resolveLocalData t c = none →
        ∀ m, resolveGoogle t = some m →
          resolveAction t c = .googleService m) ∧
      (detectCommand t = none → resolveLocalData t c = none →
        resolveGoogle t = none → resolveAction t c = .ai) := by
  intro t c
  refine ⟨?_, ?_, ?_, ?_⟩
  · intro k a h
    simp [resolveAction, resolveCommand, h]
  · intro hdc ans h
    simp [resolveAction, resolveCommand, hdc, h]
  · intro hdc hl m h
    simp [resolveAction, resolveCommand, hdc, hl, h]
  · intro hdc hl hg
    simp [resolveAction, resolveCommand, hdc, hl, hg]

/-- C5 witness: the bare shortcut `date` resolves to the `date` command
with empty arguments. -/
theorem C5_resolve_total_priority_witness :
    resolveAction "date" "" = .command "date" "" :=
  (C5_resolve_total_priority "date" "").1 "date" "" (by decide)

/-! ## C6: no-match create and the update invariant -/

/-- C6: a `focus: <name>` whose remote search returns no files creates
`<name>.md` (empty, in the managed folder) and focuses it with
`originalId` absent; `focus: update` on a session without `originalId`
fails with the "no original to update" message, changes nothing, and
performs no write-back, while with `originalId` present it writes the
in-memory content back to the original. -/
theorem C6_focus_create_update :
    (∀ (env : FocusEnv) (args : String) (st : Option FocusFile)
        (u fid cid : String),
      env.userId = some u →
      lowerStr (jsTrim args) ≠ "end" →
      lowerStr (jsTrim args) ≠ "update" →
      isAddForm (jsTrim args) = false →
      jsTrim args ≠ "" →
      env.findResp = .ok ([], fid) →
      env.createResp = .ok (cid, createdFileName (jsTrim args)) →
      (handleFocus env args st).st
          = some ⟨cid, createdFileName (jsTrim args), "text/plain", "", fid,
              none, none⟩) ∧
      (∀ (env : FocusEnv) (args : String) (f : FocusFile) (u : String),
        env.userId = some u →
        lowerStr (jsTrim args) = "update" →
        f.originalId = none →
        (handleFocus env args (some f)).st = some f ∧
          (handleFocus env args (some f)).out
              = ["❌ No original file to update (file was created in Mobius folder)."] ∧
          (handleFocus env args (some f)).updateSent = none) ∧
      ∀ (env : FocusEnv) (args : String) (f : FocusFile) (u oid : String),
        env.userId = some u →
        lowerStr (jsTrim args) = "update" →
        f.originalId = some oid →
        env.updateResp = .ok () →
        (handleFocus env args (some f)).st = some f ∧
          (handleFocus env args (some f)).updateSent = some (oid, f.content) ∧
          (handleFocus env args (some f)).out
              = ["🔄 Updating original file...",
                "✅ Original file updated successfully."] := by
  refine ⟨?_, ?_, ?_⟩
  · intro env args st u fid cid hu he hup ha hne hf hc
    simp [handleFocus, hu, he, hup, ha, hne, hf, hc]
  · intro env args f u hu hup ho
    have hne : lowerStr (jsTrim args) ≠ "end" := by rw [hup]; decide
    simp [handleFocus, hu, hne, hup, ho]
  · intro env args f u oid hu hup ho hr
    have hne : lowerStr (jsTrim args) ≠ "end" := by rw [hup]; decide
    simp [handleFocus, hu, hne, hup, ho, hr]

/-- C6 witness: concrete create (no remote match) and failed update on
the resulting kind of session. -/
theorem C6_focus_create_update_witness :
    (handleFocus envWitOk "doc" none).st
        = some ⟨"CID", "doc.md", "text/plain", "", "FID", none, none⟩ ∧
      (handleFocus envWitOk "update" (some fWit)).st = some fWit :=
  ⟨C6_focus_create_update.1 envWitOk "doc" none "u" "FID" "CID" rfl (by decide)
      (by decide) (by decide) (by decide) rfl rfl,
    (C6_focus_create_update.2.1 envWitOk "update" fWit "u" rfl (by decide)
      rfl).1⟩

/-! ## C7: find-argument parsing -/

/-- C7: `parseFindArgs "report Ext: pdf From: last month To: today"`
yields name `report`, extension `pdf`, a from-bound at start-of-day one
(JS-calendar) month before now and a to-bound at end-of-day today; every
`To:` value is normalised to `23:59:59.999`; and `From:`/`To:` text that
is neither a recognised literal nor parseable by the platform date parser
yields no constraint. -/
theorem C7_parse_find_args :
    (∀ (generic : String → Option DateTime) (now : DateTime),
        parseFindArgs generic now "report Ext: pdf From: last month To: today"
          = { name := "report", ext := some "pdf",
              fromDate := some (startOfDay (subOneMonth now)),
              toDate := some (endOfDayFields (startOfDay now)) }) ∧
      (∀ (generic : String → Option DateTime) (now : DateTime)
          (raw : String) (d : DateTime),
        (parseFindArgs generic now raw).toDate = some d →
        d.hour = 23 ∧ d.minute = 59 ∧ d.second = 59 ∧ d.ms = 999) ∧
      ∀ (generic : String → Option DateTime) (now : DateTime) (str : String),
        lowerStr (jsTrim str) ≠ "today" →
        lowerStr (jsTrim str) ≠ "yesterday" →
        lowerStr (jsTrim str) ≠ "last week" →
        lowerStr (jsTrim str) ≠ "last month" →
        lowerStr (jsTrim str) ≠ "last year" →
        generic str = none →
        parseNaturalDate generic now str = none := by
  refine ⟨fun generic now => rfl, ?_, ?_⟩
  · intro generic now raw d h
    have key : ∀ (parts : FindParts), (normalizeTo parts).toDate = some d →
        d.hour = 23 ∧ d.minute = 59 ∧ d.second = 59 ∧ d.ms = 999 := by
      intro parts hp
      unfold normalizeTo at hp
      split at hp
      · simp only [Option.some.injEq] at hp
        cases hp
        exact ⟨rfl, rfl, rfl, rfl⟩
      · rename_i heq
        rw [heq] at hp
        cases hp
    exact key _ h
  · intro generic now str h1 h2 h3 h4 h5 hg
    simp [parseNaturalDate, h1, h2, h3, h4, h5, hg]

/-- C7 witness: an unrecognised date text with a failing platform parse
yields no constraint. -/
theorem C7_parse_find_args_witness :
    parseNaturalDate (fun _ => none) ⟨2026, 9, 11, 0, 0, 0, 0⟩ "someday" = none :=
  C7_parse_find_args.2.2 (fun _ => none) ⟨2026, 9, 11, 0, 0, 0, 0⟩ "someday"
    (by decide) (by decide) (by decide) (by decide) (by decide) rfl

/-! ## C8: missing context line and the local-data classifier -/

/-- C8, counterexample: `"what is the time where am i"` matches the first
local pattern (datetime) whose required `Date/Time:` line is absent from
the context, yet the classifier still produces a LocalAnswer — from the
later location pattern — so resolution does not fall through to the AI
default. -/
theorem C8_counterexample :
    testPhrases p1Phrases "what is the time where am i" = true ∧
      (linesOf "Location: Sydney").find? (strStarts "Date/Time:") = none ∧
      resolveLocalData "what is the time where am i" "Location: Sydney"
        = some "Sydney" ∧
      resolveAction "what is the time where am i" "Location: Sydney"
        = .localAnswer "Sydney" :=
  ⟨by decide, by decide, by decide, by decide⟩

theorem resolveLocalDataGo_none (text : String) (lines : List String) :
    ∀ ps : List LocalPattern,
      (∀ p ∈ ps, testPhrases p.phrases text = true →
        answerTruthy (extractLocal p.key lines) = none) →
      resolveLocalDataGo text lines ps = none := by
  intro ps
  induction ps with
  | nil => intro _; rfl
  | cons p rest ih =>
    intro h
    simp only [resolveLocalDataGo]
    by_cases hp : testPhrases p.phrases text = true
    · rw [if_pos hp, h p (List.mem_cons_self p rest) hp]
      exact ih fun q hq => h q (List.mem_cons_of_mem p hq)
    · rw [if_neg hp]
      exact ih fun q hq => h q (List.mem_cons_of_mem p hq)

/-- C8, amended: a matched pattern whose required context line is absent
(or extracts an empty value) never answers — it falls through to the later
patterns; when this holds of every matched pattern, the classifier
produces nothing and resolution proceeds to the Google router and
ultimately the AI default. -/
theorem C8_local_fallthrough :
    ∀ (text context : String),
      (∀ p ∈ LOCAL_PATTERNS, testPhrases p.phrases text = true →
        answerTruthy (extractLocal p.key (linesOf context)) = none) →
      resolveLocalData text context = none ∧
        (detectCommand text = none → resolveGoogle text = none →
          resolveAction text context = .ai) ∧
        (detectCommand text = none → ∀ m, resolveGoogle text = some m →
          resolveAction text context = .googleService m) := by
  intro text context h
  have hnone : resolveLocalData text context = none := by
    unfold resolveLocalData
    split
    · rfl
    · exact resolveLocalDataGo_none text (linesOf context) LOCAL_PATTERNS h
  refine ⟨hnone, ?_, ?_⟩
  · intro hdc hg
    simp [resolveAction, resolveCommand, hdc, hnone, hg]
  · intro hdc m hg
    simp [resolveAction, resolveCommand, hdc, hnone, hg]

/-- C8 witness: `"where am i"` matches the location pattern, the context
has no `Location:` line, and the classifier yields nothing. -/
theorem C8_local_fallthrough_witness :
    resolveLocalData "where am i" "X: y" = none :=
  (C8_local_fallthrough "where am i" "X: y" (by decide)).1

/-! ## C9: ensureAccess idempotence -/

theorem ensureAccess_root_noop (env : AccessEnv) (st : AccessState)
    (hd : String) (h : st.root = some hd) :
    ensureAccess env st
      = { ok := true, state := st, prompts := 0, storeReads := 0, out := [] } := by
  simp [ensureAccess, h]

theorem handleAccess_ok_root (env : AccessEnv) (st : AccessState) :
    (handleAccess env st).ok = true →
      ∃ hd, (handleAccess env st).state.root = some hd := by
  unfold handleAccess
  split
  · intro h
    simp at h
  · split
    · intro _
      exact ⟨_, rfl⟩
    · intro h
      simp at h

theorem ensureAccess_ok_root (env : AccessEnv) (st : AccessState) :
    (ensureAccess env st).ok = true →
      ∃ hd, (ensureAccess env st).state.root = some hd := by
  unfold ensureAccess
  split
  · rename_i hroot
    intro _
    cases hx : st.root with
    | none => rw [hx] at hroot; simp at hroot
    | some v => exact ⟨v, rfl⟩
  · split
    · exact handleAccess_ok_root env st
    · split
      · rename_i hd heq
        split
        · intro _
          exact ⟨hd, rfl⟩
        · split
          · intro _
            exact ⟨hd, rfl⟩
          · exact handleAccess_ok_root env st
      · exact handleAccess_ok_root env st

theorem handleAccess_prompts_le (env : AccessEnv) (st : AccessState) :
    (handleAccess env st).prompts ≤ 1 := by
  unfold handleAccess
  split
  · simp
  · split <;> simp

/-- C9: (a) with a handle already in memory `ensureAccess` succeeds
immediately — no store read, no prompt, state untouched; (b) after any
successful `ensureAccess`, a second call is a no-op success with no
prompt and no store read; (c) when the stored capability's permission is
still granted (no revocation) and the first call succeeds, two
consecutive calls show at most one prompt in total. -/
theorem C9_ensure_access_idempotent :
    (∀ (env : AccessEnv) (st : AccessState) (hd : String),
        st.root = some hd →
        ensureAccess env st
          = { ok := true, state := st, prompts := 0, storeReads := 0,
              out := [] }) ∧
      (∀ (env1 env2 : AccessEnv) (st : AccessState),
        (ensureAccess env1 st).ok = true →
        ensureAccess env2 (ensureAccess env1 st).state
          = { ok := true, state := (ensureAccess env1 st).state, prompts := 0,
              storeReads := 0, out := [] }) ∧
      ∀ (env1 env2 : AccessEnv) (st : AccessState),
        (st.stored.isSome → env1.queryPerm = .granted) →
        (ensureAccess env1 st).ok = true →
        (ensureAccess env1 st).prompts
            + (ensureAccess env2 (ensureAccess env1 st).state).prompts ≤ 1 := by
  refine ⟨fun env st hd h => ensureAccess_root_noop env st hd h, ?_, ?_⟩
  · intro env1 env2 st hok
    obtain ⟨hd, hroot⟩ := ensureAccess_ok_root env1 st hok
    exact ensureAccess_root_noop env2 _ hd hroot
  · intro env1 env2 st hnorev hok
    obtain ⟨hd, hroot⟩ := ensureAccess_ok_root env1 st hok
    rw [ensureAccess_root_noop env2 _ hd hroot]
    have hfirst : (ensureAccess env1 st).prompts ≤ 1 := by
      unfold ensureAccess
      split
      · simp
      · split
        · exact handleAccess_prompts_le env1 st
        · split
          · rename_i hd2 heq
            have hq : env1.queryPerm = .granted := hnorev (by rw [heq]; rfl)
            rw [if_pos hq]
            simp
          · exact handleAccess_prompts_le env1 st
    show (ensureAccess env1 st).prompts + 0 ≤ 1
    omega

/-- C9 witness: a session already holding a handle gets an immediate
no-op success. -/
theorem C9_ensure_access_idempotent_witness :
    ensureAccess envAccessWit ⟨some "h", some "h"⟩
      = { ok := true, state := ⟨some "h", some "h"⟩, prompts := 0,
          storeReads := 0, out := [] } :=
  C9_ensure_access_idempotent.1 envAccessWit ⟨some "h", some "h"⟩ "h" rfl

/-! ## C10: acquisition failure leaves no capability at all -/

theorem handleAccess_prompts_supported (env : AccessEnv) (st : AccessState)
    (hs : env.apiSupported = true) : (handleAccess env st).prompts = 1 := by
  simp only [handleAccess, hs, Bool.not_true]
  rw [if_neg (by simp)]
  split <;> rfl

/-- C10: `handleAccess` clears both the in-memory handle and the stored
slot before the picker, so a cancelled or denied acquisition leaves the
session with no capability at all — whatever was held before is not
restored; and from that empty state any later `ensureAccess` must prompt
again (exactly one picker prompt) instead of reusing anything. -/
theorem C10_access_failure_clears :
    (∀ (env : AccessEnv) (st : AccessState) (e : Bool × String),
        env.apiSupported = true → env.picker = .error e →
        (handleAccess env st).ok = false ∧
          (handleAccess env st).state = ⟨none, none⟩) ∧
      ∀ (env2 : AccessEnv), env2.apiSupported = true →
        (ensureAccess env2 ⟨none, none⟩).prompts = 1 := by
  constructor
  · intro env st e hs hp
    constructor <;> simp [handleAccess, hs, hp]
  · intro env2 hs
    unfold ensureAccess
    split
    · rename_i hroot
      simp at hroot
    · split
      · exact handleAccess_prompts_supported env2 _ hs
      · exact handleAccess_prompts_supported env2 _ hs

/-- C10 witness: a cancelled picker wipes a previously held capability,
and a later `ensureAccess` from the wiped state prompts once. -/
theorem C10_access_failure_clears_witness :
    (handleAccess { envAccessWit with picker := .error (true, "") }
        ⟨some "old", some "old"⟩).state = ⟨none, none⟩ ∧
      (ensureAccess envAccessWit ⟨none, none⟩).prompts = 1 :=
  ⟨(C10_access_failure_clears.1 _ ⟨some "old", some "old"⟩ (true, "") rfl
      rfl).2,
    C10_access_failure_clears.2 envAccessWit rfl⟩

end Mobius
